import Mathlib

/-!
Verification development for the TempFiles client-side encryption protocol.

The development shallowly embeds the client code: the cryptographic packaging
utility (getKeyFromCode / encryptFile / decryptFile), the package codec
(JSON.stringify / JSON.parse of the metadata object with a base64 payload),
the retrieval state machine (performSearch / attemptDecryption /
handlePasswordSubmit / handleReveal) and the upload flow (handleInitialSubmit /
executeUpload).

Bytes are modelled as `Nat` lists (a `Uint8Array` cell is < 256, carried as a
hypothesis where it matters).  Platform primitives that the repository calls
but does not implement are modelled explicitly and each model is documented at
its definition: SHA-256 and AES-GCM are idealized (deterministic, injective,
authenticated), `btoa`/`atob` and the JSON quoting rules are implemented
faithfully, and `TextEncoder`/`TextDecoder` are modelled as the code-point
encoding (the development uses only that encoding and decoding are mutually
inverse and injective).
-/

/-- FileOptions from types.ts: the option flags placed inside the encrypted
package.  `burnDelaySeconds` is optional (`undefined` in JS is `none`). -/
structure FileOptions where
  burnOnRead : Bool
  durationMinutes : Nat
  burnDelaySeconds : Option Nat
deriving DecidableEq

/-- Model of a JS `File` as passed to `encryptFile`: name, mime type and the
payload bytes of `file.arrayBuffer()`. -/
structure FileData where
  name : String
  type : String
  buffer : List Nat
deriving DecidableEq

/-- The object serialized by `encryptFile` into the JSON `dataPackage`:
mime type, original file name, options, and the base64 rendering of the
payload bytes. -/
structure PackageData where
  mimeType : String
  fileName : String
  options : FileOptions
  data : String
deriving DecidableEq

/-- The value `decryptFile` resolves with: the decoded payload bytes (the
`Blob`), the options object and the mime type.  Note the original file name is
not part of this result. -/
structure DecryptResult where
  blob : List Nat
  options : FileOptions
  mimeType : String
deriving DecidableEq

/-- Model of `TextEncoder().encode`: a string becomes its list of code points.
The development relies only on this being injective with `bytesToString` as a
left inverse, which is also what the real UTF-8 pair provides. -/
def stringToBytes (s : String) : List Nat :=
  s.data.map Char.toNat

/-- Model of `TextDecoder().decode` on the bytes produced by `stringToBytes`:
succeeds exactly when every cell is a valid code point. -/
def bytesToString (bs : List Nat) : Option String :=
  if bs.all (fun b => (Char.ofNat b).toNat == b) then
    some (String.mk (bs.map Char.ofNat))
  else none

/-- Model of `TextDecoder().decode` as used on the decrypted payload blob by
`decryptedBlob.text()`: total, invalid cells fall back to the default
character, as the real decoder substitutes U+FFFD. -/
def blobText (bs : List Nat) : String :=
  String.mk (bs.map Char.ofNat)

theorem bytesToString_stringToBytes (s : String) :
    bytesToString (stringToBytes s) = some s := by
  have hall : (stringToBytes s).all (fun b => (Char.ofNat b).toNat == b) = true := by
    simp only [stringToBytes, List.all_eq_true]
    intro b hb
    obtain ⟨c, -, rfl⟩ := List.mem_map.1 hb
    simp [Char.ofNat_toNat]
  have hmap : (stringToBytes s).map Char.ofNat = s.data := by
    simp only [stringToBytes, List.map_map]
    have hcomp : (Char.ofNat ∘ Char.toNat) = id := by
      funext c
      simp [Char.ofNat_toNat]
    simp [hcomp]
  rw [bytesToString, if_pos hall, hmap]

theorem stringToBytes_injective {s t : String}
    (h : stringToBytes s = stringToBytes t) : s = t := by
  have hs := bytesToString_stringToBytes s
  have ht := bytesToString_stringToBytes t
  rw [h, ht] at hs
  exact (Option.some.inj hs).symm

/-- Base64 alphabet used by `btoa`/`atob`. -/
def b64Alpha : List Char :=
  "ABCDEFGHIJKLMNOPQRSTUVWXYZabcdefghijklmnopqrstuvwxyz0123456789+/".data

/-- Character for a sextet value. -/
def b64Char (n : Nat) : Char := b64Alpha.getD n '='

/-- Sextet value of an alphabet character, `none` for characters outside the
alphabet (on which `atob` raises). -/
def b64Val (c : Char) : Option Nat :=
  let i := b64Alpha.indexOf c
  if i < 64 then some i else none

theorem b64Val_b64Char : ∀ n < 64, b64Val (b64Char n) = some n := by decide

theorem b64Char_ne_pad : ∀ n < 64, b64Char n ≠ '=' := by decide

/-- Model of `arrayBufferToBase64` (string building plus `window.btoa`):
standard base64 of the byte list, three bytes to four characters with `=`
padding. -/
def b64EncodeList : List Nat → List Char
  | [] => []
  | [a] => [b64Char (a / 4), b64Char (a % 4 * 16), '=', '=']
  | [a, b] => [b64Char (a / 4), b64Char (a % 4 * 16 + b / 16), b64Char (b % 16 * 4), '=']
  | a :: b :: c :: rest =>
    b64Char (a / 4) :: b64Char (a % 4 * 16 + b / 16) :: b64Char (b % 16 * 4 + c / 64) ::
      b64Char (c % 64) :: b64EncodeList rest

/-- Model of `base64ToArrayBuffer` (`window.atob` plus `charCodeAt`): inverse
of base64 encoding, `none` where `atob` raises. -/
def b64DecodeList : List Char → Option (List Nat)
  | [] => some []
  | c1 :: c2 :: c3 :: c4 :: rest =>
    match b64Val c1, b64Val c2 with
    | some a, some b =>
      if c3 = '=' then
        if c4 = '=' ∧ rest = [] then some [a * 4 + b / 16] else none
      else
        match b64Val c3 with
        | some c =>
          if c4 = '=' then
            if rest = [] then some [a * 4 + b / 16, b % 16 * 16 + c / 4] else none
          else
            match b64Val c4 with
            | some d =>
              (b64DecodeList rest).map
                (fun tail => (a * 4 + b / 16) :: (b % 16 * 16 + c / 4) :: (c % 4 * 64 + d) :: tail)
            | none => none
        | none => none
    | _, _ => none
  | _ => none

theorem b64_roundtrip :
    ∀ bs : List Nat, (∀ b ∈ bs, b < 256) →
      b64DecodeList (b64EncodeList bs) = some bs := by
  intro bs
  induction bs using b64EncodeList.induct with
  | case1 =>
    intro _
    rfl
  | case2 a =>
    intro h
    have ha : a < 256 := h a (by simp)
    have h1 : a / 4 < 64 := by omega
    have h2 : a % 4 * 16 < 64 := by omega
    simp only [b64EncodeList, b64DecodeList, b64Val_b64Char _ h1, b64Val_b64Char _ h2]
    simp
    omega
  | case3 a b =>
    intro h
    have ha : a < 256 := h a (by simp)
    have hb : b < 256 := h b (by simp)
    have h1 : a / 4 < 64 := by omega
    have h2 : a % 4 * 16 + b / 16 < 64 := by omega
    have h3 : b % 16 * 4 < 64 := by omega
    simp only [b64EncodeList, b64DecodeList, b64Val_b64Char _ h1, b64Val_b64Char _ h2,
      b64Val_b64Char _ h3]
    rw [if_neg (b64Char_ne_pad _ h3)]
    simp
    constructor
    · omega
    · omega
  | case4 a b c rest ih =>
    intro h
    have ha : a < 256 := h a (by simp)
    have hb : b < 256 := h b (by simp)
    have hc : c < 256 := h c (by simp)
    have hrest : ∀ x ∈ rest, x < 256 := by
      intro x hx
      exact h x (by simp [hx])
    have h1 : a / 4 < 64 := by omega
    have h2 : a % 4 * 16 + b / 16 < 64 := by omega
    have h3 : b % 16 * 4 + c / 64 < 64 := by omega
    have h4 : c % 64 < 64 := by omega
    simp only [b64EncodeList, b64DecodeList, b64Val_b64Char _ h1, b64Val_b64Char _ h2,
      b64Val_b64Char _ h3, b64Val_b64Char _ h4]
    rw [if_neg (b64Char_ne_pad _ h3), if_neg (b64Char_ne_pad _ h4)]
    rw [ih hrest]
    simp
    refine ⟨by omega, by omega, by omega⟩

/-- The `arrayBufferToBase64` helper of the crypto utility. -/
def arrayBufferToBase64 (buffer : List Nat) : String :=
  String.mk (b64EncodeList buffer)

/-- The `base64ToArrayBuffer` helper of the crypto utility. -/
def base64ToArrayBuffer (base64 : String) : Option (List Nat) :=
  b64DecodeList base64.data

theorem base64_helper_roundtrip (buffer : List Nat) (h : ∀ b ∈ buffer, b < 256) :
    base64ToArrayBuffer (arrayBufferToBase64 buffer) = some buffer := by
  simpa [base64ToArrayBuffer, arrayBufferToBase64] using b64_roundtrip buffer h

/-- Decimal digit character, as produced by number stringification. -/
def digitChar (n : Nat) : Char := Char.ofNat (48 + n)

/-- Fuel-driven decimal printer (the fuel is only a termination device; with
fuel above the argument it prints the usual decimal digits). -/
def natToCharsAux : Nat → Nat → List Char
  | 0, _ => []
  | fuel + 1, n =>
    if n < 10 then [digitChar n]
    else natToCharsAux fuel (n / 10) ++ [digitChar (n % 10)]

/-- Model of `JSON.stringify` on a non-negative whole number (and of template
interpolation of `Date.now()`): its decimal digits. -/
def natToChars (n : Nat) : List Char := natToCharsAux (n + 1) n

/-- Decimal rendering as a string, as used for the storage path timestamp. -/
def natToString (n : Nat) : String := String.mk (natToChars n)

/-- Decimal digit test used by the number grammar of `JSON.parse`. -/
def isDigitCh (c : Char) : Bool := 48 ≤ c.toNat && c.toNat ≤ 57

/-- Consume a maximal run of decimal digits, folding them into an accumulator. -/
def parseDigits : List Char → Nat → Nat × List Char
  | [], acc => (acc, [])
  | c :: rest, acc =>
    if isDigitCh c then parseDigits rest (acc * 10 + (c.toNat - 48))
    else (acc, c :: rest)

/-- Model of the `JSON.parse` number grammar restricted to non-negative
integers, which is the only number shape the package serializer emits. -/
def parseNatList (cs : List Char) : Option (Nat × List Char) :=
  match cs with
  | c :: _ => if isDigitCh c then some (parseDigits cs 0) else none
  | [] => none

/-- Head of the remainder is not a digit, so a maximal digit run ends there. -/
def headNotDigit (cs : List Char) : Bool :=
  match cs with
  | [] => true
  | c :: _ => !isDigitCh c

theorem isDigitCh_digitChar : ∀ n < 10, isDigitCh (digitChar n) = true := by decide

theorem digitChar_val : ∀ n < 10, (digitChar n).toNat - 48 = n := by decide

theorem parseDigits_not_digit (cs : List Char) (acc : Nat) (h : headNotDigit cs = true) :
    parseDigits cs acc = (acc, cs) := by
  cases cs with
  | nil => rfl
  | cons c rest =>
    simp only [headNotDigit, Bool.not_eq_true'] at h
    simp [parseDigits, h]

theorem parseDigits_natToCharsAux :
    ∀ fuel n, n < fuel → ∀ acc rest,
      ∃ m, 0 < m ∧
        parseDigits (natToCharsAux fuel n ++ rest) acc = parseDigits rest (acc * m + n) := by
  intro fuel
  induction fuel with
  | zero =>
    intro n hn
    omega
  | succ fuel ih =>
    intro n hn acc rest
    by_cases hsmall : n < 10
    · refine ⟨10, by omega, ?_⟩
      simp only [natToCharsAux, if_pos hsmall, List.cons_append, List.nil_append]
      rw [parseDigits, if_pos (isDigitCh_digitChar n hsmall), digitChar_val n hsmall]
    · have hdiv : n / 10 < fuel := by
        have : n / 10 < n := Nat.div_lt_self (by omega) (by omega)
        omega
      obtain ⟨m, hm, hrec⟩ := ih (n / 10) hdiv acc ([digitChar (n % 10)] ++ rest)
      refine ⟨m * 10, by omega, ?_⟩
      rw [natToCharsAux, if_neg hsmall, List.append_assoc, hrec]
      have hmod : n % 10 < 10 := Nat.mod_lt _ (by omega)
      simp only [List.cons_append, List.nil_append]
      rw [parseDigits, if_pos (isDigitCh_digitChar _ hmod), digitChar_val _ hmod]
      have harith : (acc * m + n / 10) * 10 + n % 10 = acc * (m * 10) + n := by
        have hdm := Nat.div_add_mod n 10
        nlinarith [hdm]
      rw [harith]

theorem natToCharsAux_head_digit :
    ∀ fuel n, ∃ c cs, natToCharsAux (fuel + 1) n = c :: cs ∧ isDigitCh c = true := by
  intro fuel
  induction fuel with
  | zero =>
    intro n
    by_cases hsmall : n < 10
    · exact ⟨digitChar n, [], by simp [natToCharsAux, hsmall], isDigitCh_digitChar n hsmall⟩
    · refine ⟨digitChar (n % 10), [], ?_, isDigitCh_digitChar _ (Nat.mod_lt _ (by omega))⟩
      simp [natToCharsAux, hsmall]
  | succ fuel ih =>
    intro n
    by_cases hsmall : n < 10
    · exact ⟨digitChar n, [], by simp [natToCharsAux, hsmall], isDigitCh_digitChar n hsmall⟩
    · obtain ⟨c, cs, hc, hdig⟩ := ih (n / 10)
      refine ⟨c, cs ++ [digitChar (n % 10)], ?_, hdig⟩
      rw [natToCharsAux, if_neg hsmall, hc]
      simp

theorem parseNatList_natToChars (n : Nat) (rest : List Char) (h : headNotDigit rest = true) :
    parseNatList (natToChars n ++ rest) = some (n, rest) := by
  obtain ⟨c, cs, hc, hdig⟩ := natToCharsAux_head_digit n n
  obtain ⟨m, hm, hparse⟩ := parseDigits_natToCharsAux (n + 1) n (by omega) 0 rest
  rw [parseDigits_not_digit rest _ h] at hparse
  have hgoal : natToChars n ++ rest = c :: (cs ++ rest) := by
    rw [natToChars, hc]
    simp
  rw [hgoal, parseNatList, if_pos hdig, ← List.cons_append, ← hc]
  rw [hparse]
  simp

/-- Lowercase hex digit, as emitted inside a JSON `\u00xx` escape. -/
def hexDigitChar (n : Nat) : Char :=
  if n < 10 then Char.ofNat (48 + n) else Char.ofNat (87 + n)

/-- Hex digit value accepted by the `JSON.parse` `\uXXXX` escape. -/
def parseHexVal (c : Char) : Option Nat :=
  if 48 ≤ c.toNat ∧ c.toNat ≤ 57 then some (c.toNat - 48)
  else if 97 ≤ c.toNat ∧ c.toNat ≤ 102 then some (c.toNat - 87)
  else if 65 ≤ c.toNat ∧ c.toNat ≤ 70 then some (c.toNat - 55)
  else none

theorem parseHexVal_hexDigitChar : ∀ v < 16, parseHexVal (hexDigitChar v) = some v := by decide

/-- Model of the `JSON.stringify` string quoting rules for one character:
quote and backslash are escaped, the named control escapes are used where they
exist, all other control characters become `\u00xx`, and everything else is
emitted verbatim. -/
def escapeChar (c : Char) : List Char :=
  if c = '\"' then ['\\', '\"']
  else if c = '\\' then ['\\', '\\']
  else if c.toNat = 8 then ['\\', 'b']
  else if c.toNat = 9 then ['\\', 't']
  else if c.toNat = 10 then ['\\', 'n']
  else if c.toNat = 12 then ['\\', 'f']
  else if c.toNat = 13 then ['\\', 'r']
  else if c.toNat < 32 then
    ['\\', 'u', '0', '0', hexDigitChar (c.toNat / 16), hexDigitChar (c.toNat % 16)]
  else [c]

/-- Quoting applied to a whole character list. -/
def escapeList (cs : List Char) : List Char :=
  cs.foldr (fun c acc => escapeChar c ++ acc) []

/-- Model of `JSON.stringify` on a string value: quoted and escaped. -/
def printJsonString (s : String) : List Char :=
  '\"' :: (escapeList s.data ++ ['\"'])

/-- Prepend a decoded character to a string-body parse result. -/
def psCons (c : Char) (res : Option (List Char × List Char)) :
    Option (List Char × List Char) :=
  res.map (fun p => (c :: p.1, p.2))

/-- Model of the `JSON.parse` string grammar after the opening quote: consume
until the closing quote, decoding backslash escapes, rejecting raw control
characters and malformed escapes.  Returns the decoded content and the
remainder after the closing quote. -/
def parseStringBody : List Char → Option (List Char × List Char)
  | [] => none
  | c :: rest =>
    if c = '\"' then some ([], rest)
    else if c = '\\' then
      match rest with
      | [] => none
      | e :: r =>
        if e = '\"' then psCons '\"' (parseStringBody r)
        else if e = '\\' then psCons '\\' (parseStringBody r)
        else if e = '/' then psCons '/' (parseStringBody r)
        else if e = 'b' then psCons (Char.ofNat 8) (parseStringBody r)
        else if e = 'f' then psCons (Char.ofNat 12) (parseStringBody r)
        else if e = 'n' then psCons (Char.ofNat 10) (parseStringBody r)
        else if e = 'r' then psCons (Char.ofNat 13) (parseStringBody r)
        else if e = 't' then psCons (Char.ofNat 9) (parseStringBody r)
        else if e = 'u' then
          match r with
          | h1 :: h2 :: h3 :: h4 :: r2 =>
            (parseHexVal h1).bind (fun v1 => (parseHexVal h2).bind (fun v2 =>
              (parseHexVal h3).bind (fun v3 => (parseHexVal h4).bind (fun v4 =>
                psCons (Char.ofNat (v1 * 4096 + v2 * 256 + v3 * 16 + v4)) (parseStringBody r2)))))
          | _ => none
        else none
    else if c.toNat < 32 then none
    else psCons c (parseStringBody rest)

theorem psb_quote (t : List Char) : parseStringBody ('\"' :: t) = some ([], t) := by
  rw [parseStringBody.eq_def]
  rfl

theorem psb_esc_quote (t : List Char) :
    parseStringBody ('\\' :: '\"' :: t) = psCons '\"' (parseStringBody t) := by
  rw [parseStringBody.eq_def]
  rfl

theorem psb_esc_back (t : List Char) :
    parseStringBody ('\\' :: '\\' :: t) = psCons '\\' (parseStringBody t) := by
  rw [parseStringBody.eq_def]
  rfl

theorem psb_esc_b (t : List Char) :
    parseStringBody ('\\' :: 'b' :: t) = psCons (Char.ofNat 8) (parseStringBody t) := by
  rw [parseStringBody.eq_def]
  rfl

theorem psb_esc_f (t : List Char) :
    parseStringBody ('\\' :: 'f' :: t) = psCons (Char.ofNat 12) (parseStringBody t) := by
  rw [parseStringBody.eq_def]
  rfl

theorem psb_esc_n (t : List Char) :
    parseStringBody ('\\' :: 'n' :: t) = psCons (Char.ofNat 10) (parseStringBody t) := by
  rw [parseStringBody.eq_def]
  rfl

theorem psb_esc_r (t : List Char) :
    parseStringBody ('\\' :: 'r' :: t) = psCons (Char.ofNat 13) (parseStringBody t) := by
  rw [parseStringBody.eq_def]
  rfl

theorem psb_esc_t (t : List Char) :
    parseStringBody ('\\' :: 't' :: t) = psCons (Char.ofNat 9) (parseStringBody t) := by
  rw [parseStringBody.eq_def]
  rfl

theorem psb_esc_u (a b : Char) (va vb : Nat) (t : List Char)
    (ha : parseHexVal a = some va) (hb : parseHexVal b = some vb) :
    parseStringBody ('\\' :: 'u' :: '0' :: '0' :: a :: b :: t) =
      psCons (Char.ofNat (0 * 4096 + 0 * 256 + va * 16 + vb)) (parseStringBody t) := by
  rw [parseStringBody.eq_def]
  change (parseHexVal a).bind _ = _
  rw [ha, hb]
  rfl

theorem psb_plain (c : Char) (t : List Char) (hq : c ≠ '\"') (hbs : c ≠ '\\')
    (hlt : ¬ c.toNat < 32) :
    parseStringBody (c :: t) = psCons c (parseStringBody t) := by
  rw [parseStringBody.eq_def]
  simp only [if_neg hq, if_neg hbs, if_neg hlt]

theorem parseStringBody_escape :
    ∀ cs rest, parseStringBody (escapeList cs ++ ('\"' :: rest)) = some (cs, rest) := by
  intro cs
  induction cs with
  | nil =>
    intro rest
    rw [show escapeList [] = [] from rfl, List.nil_append, psb_quote]
  | cons c cs ih =>
    intro rest
    rw [show escapeList (c :: cs) = escapeChar c ++ escapeList cs from rfl, List.append_assoc]
    by_cases hq : c = '\"'
    · subst hq
      rw [show escapeChar '\"' = ['\\', '\"'] from rfl]
      simp only [List.cons_append, List.nil_append]
      rw [psb_esc_quote, ih rest]
      rfl
    · by_cases hbs : c = '\\'
      · subst hbs
        rw [show escapeChar '\\' = ['\\', '\\'] from rfl]
        simp only [List.cons_append, List.nil_append]
        rw [psb_esc_back, ih rest]
        rfl
      · by_cases h8 : c.toNat = 8
        · have hc : c = Char.ofNat 8 := by
            rw [← h8, Char.ofNat_toNat]
          rw [escapeChar, if_neg hq, if_neg hbs, if_pos h8]
          simp only [List.cons_append, List.nil_append]
          rw [psb_esc_b, ih rest, ← hc]
          rfl
        · by_cases h9 : c.toNat = 9
          · have hc : c = Char.ofNat 9 := by
              rw [← h9, Char.ofNat_toNat]
            rw [escapeChar, if_neg hq, if_neg hbs, if_neg h8, if_pos h9]
            simp only [List.cons_append, List.nil_append]
            rw [psb_esc_t, ih rest, ← hc]
            rfl
          · by_cases h10 : c.toNat = 10
            · have hc : c = Char.ofNat 10 := by
                rw [← h10, Char.ofNat_toNat]
              rw [escapeChar, if_neg hq, if_neg hbs, if_neg h8, if_neg h9, if_pos h10]
              simp only [List.cons_append, List.nil_append]
              rw [psb_esc_n, ih rest, ← hc]
              rfl
            · by_cases h12 : c.toNat = 12
              · have hc : c = Char.ofNat 12 := by
                  rw [← h12, Char.ofNat_toNat]
                rw [escapeChar, if_neg hq, if_neg hbs, if_neg h8, if_neg h9, if_neg h10, if_pos h12]
                simp only [List.cons_append, List.nil_append]
                rw [psb_esc_f, ih rest, ← hc]
                rfl
              · by_cases h13 : c.toNat = 13
                · have hc : c = Char.ofNat 13 := by
                    rw [← h13, Char.ofNat_toNat]
                  rw [escapeChar, if_neg hq, if_neg hbs, if_neg h8, if_neg h9, if_neg h10,
                    if_neg h12, if_pos h13]
                  simp only [List.cons_append, List.nil_append]
                  rw [psb_esc_r, ih rest, ← hc]
                  rfl
                · by_cases hlt : c.toNat < 32
                  · rw [escapeChar, if_neg hq, if_neg hbs, if_neg h8, if_neg h9, if_neg h10,
                      if_neg h12, if_neg h13, if_pos hlt]
                    simp only [List.cons_append, List.nil_append]
                    rw [psb_esc_u _ _ _ _ _
                      (parseHexVal_hexDigitChar (c.toNat / 16) (by omega))
                      (parseHexVal_hexDigitChar (c.toNat % 16) (by omega))]
                    rw [show 0 * 4096 + 0 * 256 + c.toNat / 16 * 16 + c.toNat % 16 = c.toNat by
                      omega]
                    rw [Char.ofNat_toNat, ih rest]
                    rfl
                  · rw [escapeChar, if_neg hq, if_neg hbs, if_neg h8, if_neg h9, if_neg h10,
                      if_neg h12, if_neg h13, if_neg hlt]
                    simp only [List.cons_append, List.nil_append]
                    rw [psb_plain c _ hq hbs hlt, ih rest]
                    rfl

/-- Character list of a string literal. -/
def litChars (s : String) : List Char := s.data

/-- Consume an exact literal prefix, as `JSON.parse` does for the fixed
punctuation and key tokens of the package document. -/
def expectLit (lit cs : List Char) : Option (List Char) :=
  if lit.isPrefixOf cs then some (cs.drop lit.length) else none

theorem expectLit_append (lit rest : List Char) : expectLit lit (lit ++ rest) = some rest := by
  have hpre : lit.isPrefixOf (lit ++ rest) = true :=
    List.isPrefixOf_iff_prefix.mpr (List.prefix_append lit rest)
  rw [expectLit, if_pos hpre, List.drop_left]

/-- Parse a quoted JSON string value: opening quote then the string body. -/
def parseQuotedString (cs : List Char) : Option (List Char × List Char) :=
  match cs with
  | c :: rest => if c = '\"' then parseStringBody rest else none
  | [] => none

theorem parseQuotedString_cons (t : List Char) :
    parseQuotedString ('\"' :: t) = parseStringBody t := rfl

theorem parseQuotedString_print (s : String) (rest : List Char) :
    parseQuotedString (printJsonString s ++ rest) = some (s.data, rest) := by
  have hlist : printJsonString s ++ rest = '\"' :: (escapeList s.data ++ ('\"' :: rest)) := by
    rw [printJsonString]
    simp
  rw [hlist, parseQuotedString_cons, parseStringBody_escape]

/-- Parse a JSON boolean literal. -/
def parseBoolLit (cs : List Char) : Option (Bool × List Char) :=
  match expectLit (litChars "true") cs with
  | some r => some (true, r)
  | none =>
    match expectLit (litChars "false") cs with
    | some r => some (false, r)
    | none => none

/-- Render of a JSON boolean literal. -/
def printBoolLit (b : Bool) : List Char :=
  if b then litChars "true" else litChars "false"

theorem parseBoolLit_print (b : Bool) (rest : List Char) :
    parseBoolLit (printBoolLit b ++ rest) = some (b, rest) := by
  cases b with
  | true =>
    rw [show printBoolLit true = litChars "true" from rfl, parseBoolLit, expectLit_append]
  | false =>
    rw [show printBoolLit false = litChars "false" from rfl, parseBoolLit]
    rw [show expectLit (litChars "true") (litChars "false" ++ rest) = none from rfl]
    rw [expectLit_append]

/-- Render of the optional `burnDelaySeconds` member: `JSON.stringify` omits a
member whose value is `undefined`. -/
def printBurnDelay (bds : Option Nat) : List Char :=
  match bds with
  | none => []
  | some d => litChars ",\"burnDelaySeconds\":" ++ natToChars d

/-- Parse of the optional `burnDelaySeconds` member of the options object. -/
def parseBurnDelay (cs : List Char) : Option (Option Nat × List Char) :=
  match expectLit (litChars ",\"burnDelaySeconds\":") cs with
  | some cs2 => (parseNatList cs2).map (fun p => (some p.1, p.2))
  | none => some (none, cs)

theorem parseBurnDelay_print (bds : Option Nat) (rest : List Char) :
    parseBurnDelay (printBurnDelay bds ++ ('\x7d' :: rest)) = some (bds, '\x7d' :: rest) := by
  cases bds with
  | none => rfl
  | some d =>
    rw [show printBurnDelay (some d) = litChars ",\"burnDelaySeconds\":" ++ natToChars d
      from rfl]
    rw [List.append_assoc, parseBurnDelay, expectLit_append]
    show Option.map (fun p => (some p.1, p.2)) (parseNatList (natToChars d ++ '\x7d' :: rest)) =
      some (some d, '\x7d' :: rest)
    rw [parseNatList_natToChars d ('\x7d' :: rest) rfl]
    rfl

/-- Render of the options object, member for member in the insertion order of
the object literal passed by `executeUpload`. -/
def printOptions (o : FileOptions) : List Char :=
  litChars "\x7b\"burnOnRead\":" ++ (printBoolLit o.burnOnRead
    ++ (litChars ",\"durationMinutes\":" ++ (natToChars o.durationMinutes
    ++ (printBurnDelay o.burnDelaySeconds ++ ['\x7d']))))

/-- Parse of the options object. -/
def parseOptionsList (cs0 : List Char) : Option (FileOptions × List Char) := do
  let cs1 ← expectLit (litChars "\x7b\"burnOnRead\":") cs0
  let pb ← parseBoolLit cs1
  let cs2 ← expectLit (litChars ",\"durationMinutes\":") pb.2
  let pn ← parseNatList cs2
  let pd ← parseBurnDelay pn.2
  let cs3 ← expectLit ['\x7d'] pd.2
  pure ({ burnOnRead := pb.1, durationMinutes := pn.1, burnDelaySeconds := pd.1 }, cs3)

theorem parseOptionsList_print (o : FileOptions) (rest : List Char) :
    parseOptionsList (printOptions o ++ rest) = some (o, rest) := by
  rcases o with ⟨b, dur, bds⟩
  rw [printOptions]
  simp only [List.append_assoc, List.cons_append, List.nil_append]
  rw [parseOptionsList, expectLit_append]
  simp only [Option.bind_eq_bind, Option.some_bind]
  rw [parseBoolLit_print]
  simp only [Option.bind_eq_bind, Option.some_bind]
  rw [expectLit_append]
  simp only [Option.bind_eq_bind, Option.some_bind]
  rw [parseNatList_natToChars dur (printBurnDelay bds ++ ('\x7d' :: rest)) ?hnd]
  case hnd =>
    cases bds with
    | none => rfl
    | some d => rfl
  simp only [Option.bind_eq_bind, Option.some_bind]
  rw [parseBurnDelay_print]
  simp only [Option.bind_eq_bind, Option.some_bind]
  rw [show ('\x7d' :: rest) = ['\x7d'] ++ rest from rfl, expectLit_append]
  simp only [Option.bind_eq_bind, Option.some_bind]
  rfl

/-- Model of `JSON.stringify` on the `dataPackage` object literal built by
`encryptFile`: members in insertion order `mimeType`, `fileName`, `options`,
`data`, with no whitespace, exactly as the platform function prints it. -/
def serializePackage (p : PackageData) : String :=
  String.mk (litChars "\x7b\"mimeType\":" ++ (printJsonString p.mimeType
    ++ (litChars ",\"fileName\":" ++ (printJsonString p.fileName
    ++ (litChars ",\"options\":" ++ (printOptions p.options
    ++ (litChars ",\"data\":" ++ (printJsonString p.data ++ ['\x7d']))))))))

/-- Model of `JSON.parse` restricted to the package document shape produced by
`serializePackage`.  On any other input it returns `none`; inside
`decryptFile` every such failure lands in the same catch block, so nothing in
the development depends on the parser accepting more of the JSON grammar. -/
def parsePackage (s : String) : Option PackageData := do
  let cs1 ← expectLit (litChars "\x7b\"mimeType\":") s.data
  let pm ← parseQuotedString cs1
  let cs2 ← expectLit (litChars ",\"fileName\":") pm.2
  let pf ← parseQuotedString cs2
  let cs3 ← expectLit (litChars ",\"options\":") pf.2
  let po ← parseOptionsList cs3
  let cs4 ← expectLit (litChars ",\"data\":") po.2
  let pd ← parseQuotedString cs4
  let cs5 ← expectLit ['\x7d'] pd.2
  if cs5 = [] then
    some { mimeType := String.mk pm.1, fileName := String.mk pf.1,
           options := po.1, data := String.mk pd.1 }
  else none

theorem string_mk_data (s : String) : String.mk s.data = s := by
  cases s
  rfl

theorem parsePackage_serializePackage (p : PackageData) :
    parsePackage (serializePackage p) = some p := by
  rcases p with ⟨mime, fname, opts, dat⟩
  rw [parsePackage, serializePackage]
  rw [show ∀ l : List Char, (String.mk l).data = l from fun l => rfl]
  rw [expectLit_append]
  simp only [Option.bind_eq_bind, Option.some_bind]
  rw [parseQuotedString_print]
  simp only [Option.bind_eq_bind, Option.some_bind]
  rw [expectLit_append]
  simp only [Option.bind_eq_bind, Option.some_bind]
  rw [parseQuotedString_print]
  simp only [Option.bind_eq_bind, Option.some_bind]
  rw [expectLit_append]
  simp only [Option.bind_eq_bind, Option.some_bind]
  rw [parseOptionsList_print]
  simp only [Option.bind_eq_bind, Option.some_bind]
  rw [expectLit_append]
  simp only [Option.bind_eq_bind, Option.some_bind]
  rw [parseQuotedString_print]
  simp only [Option.bind_eq_bind, Option.some_bind]
  rw [show expectLit ['\x7d'] ['\x7d'] = some [] by decide]
  simp only [Option.bind_eq_bind, Option.some_bind]
  simp only [string_mk_data]
  rfl

/-- The serializer half of the Package Codec, exactly the `dataPackage`
construction of `encryptFile`: base64 the payload, then stringify the
metadata object carrying mime type, file name and options. -/
def serializeTuple (payload : List Nat) (mimeType fileName : String)
    (options : FileOptions) : String :=
  serializePackage
    { mimeType := mimeType, fileName := fileName, options := options,
      data := arrayBufferToBase64 payload }

/-- The deserializer half of the Package Codec, exactly the reading steps of
`decryptFile`: parse the JSON document, then base64-decode its `data` member.
The parsed object carries all four components, including the file name
(`decryptFile` itself then returns only blob, options and mime type). -/
def deserializeTuple (s : String) :
    Option (List Nat × String × String × FileOptions) := do
  let p ← parsePackage s
  let payload ← base64ToArrayBuffer p.data
  pure (payload, p.mimeType, p.fileName, p.options)

theorem deserializeTuple_serializeTuple (payload : List Nat) (mimeType fileName : String)
    (options : FileOptions) (h : ∀ b ∈ payload, b < 256) :
    deserializeTuple (serializeTuple payload mimeType fileName options) =
      some (payload, mimeType, fileName, options) := by
  rw [serializeTuple, deserializeTuple, parsePackage_serializePackage]
  simp only [Option.bind_eq_bind, Option.some_bind]
  rw [base64_helper_roundtrip payload h]
  simp only [Option.bind_eq_bind, Option.some_bind]
  rfl

/-- The single error message thrown by the catch-all handler of
`decryptFile`. -/
def decryptErrorMsg : String :=
  "No se pudo desencriptar. El código podría ser incorrecto o el archivo está dañado."

/-- Modelled platform primitive: `crypto.subtle.digest("SHA-256", bytes)` as
used by `getKeyFromCode`, idealized as an injective deterministic digest (the
identity on the byte list).  The development uses only that the digest is
deterministic and collision-free, which SHA-256 provides computationally; no
theorem here depends on the digest being fixed-width or one-way. -/
def sha256Bytes (data : List Nat) : List Nat := data

/-- The `getKeyFromCode` function of the crypto utility: the AES key is the
SHA-256 digest of the encoded code string.  A key is represented by its raw
byte list. -/
def getKeyFromCode (code : String) : List Nat :=
  sha256Bytes (stringToBytes code)

theorem getKeyFromCode_injective {s t : String}
    (h : getKeyFromCode s = getKeyFromCode t) : s = t :=
  stringToBytes_injective h

/-- Modelled platform primitive: WebCrypto AES-GCM encryption, idealized as an
authenticated-encryption oracle whose ciphertext determines (and here simply
embeds) the key, the nonce and the plaintext.  Decryption succeeds exactly
when it is attempted with the same key, a 12-byte nonce that matches, and a
structurally intact ciphertext, which is the guarantee the real AEAD provides
computationally. -/
def aesGcmEncrypt (key iv pt : List Nat) : List Nat :=
  key.length :: (key ++ (iv ++ pt))

/-- Modelled platform primitive: WebCrypto AES-GCM decryption for the oracle
above; any mismatch is an authentication failure (`none`, the rejected
promise of `crypto.subtle.decrypt`). -/
def aesGcmDecrypt (key iv ct : List Nat) : Option (List Nat) :=
  match ct with
  | [] => none
  | n :: rest =>
    if n = key.length ∧ rest.take key.length = key ∧ iv.length = 12 ∧
        (rest.drop key.length).take 12 = iv then
      some ((rest.drop key.length).drop 12)
    else none

theorem aesGcm_roundtrip (key iv pt : List Nat) (hiv : iv.length = 12) :
    aesGcmDecrypt key iv (aesGcmEncrypt key iv pt) = some pt := by
  have hcond : key.length = key.length ∧ (key ++ (iv ++ pt)).take key.length = key ∧
      iv.length = 12 ∧ ((key ++ (iv ++ pt)).drop key.length).take 12 = iv := by
    refine ⟨rfl, List.take_left key (iv ++ pt), hiv, ?_⟩
    rw [List.drop_left, ← hiv, List.take_left]
  rw [aesGcmEncrypt]
  show (if key.length = key.length ∧ (key ++ (iv ++ pt)).take key.length = key ∧
      iv.length = 12 ∧ ((key ++ (iv ++ pt)).drop key.length).take 12 = iv then
      some (((key ++ (iv ++ pt)).drop key.length).drop 12) else none) = some pt
  rw [if_pos hcond, List.drop_left, ← hiv, List.drop_left]

theorem aesGcm_wrong_key (key key' iv iv' pt : List Nat) (hne : key' ≠ key) :
    aesGcmDecrypt key' iv' (aesGcmEncrypt key iv pt) = none := by
  have hcond : ¬ (key.length = key'.length ∧ (key ++ (iv ++ pt)).take key'.length = key' ∧
      iv'.length = 12 ∧ ((key ++ (iv ++ pt)).drop key'.length).take 12 = iv') := by
    rintro ⟨hlen, htake, -, -⟩
    rw [← hlen, List.take_left] at htake
    exact hne htake.symm
  rw [aesGcmEncrypt]
  show (if key.length = key'.length ∧ (key ++ (iv ++ pt)).take key'.length = key' ∧
      iv'.length = 12 ∧ ((key ++ (iv ++ pt)).drop key'.length).take 12 = iv' then
      some (((key ++ (iv ++ pt)).drop key'.length).drop 12) else none) = none
  rw [if_neg hcond]

/-- The `encryptFile` function of the crypto utility: derive the key from the
code, draw a fresh 12-byte IV (passed here as the `iv` argument, the value
returned by `crypto.getRandomValues(new Uint8Array(12))`), serialize the
package (mime type, file name, options, base64 payload), encode it, encrypt
it, and return `IV || ciphertext` as the stored blob. -/
def encryptFile (file : FileData) (code : String) (options : FileOptions)
    (iv : List Nat) : List Nat :=
  iv ++ aesGcmEncrypt (getKeyFromCode code) iv
    (stringToBytes (serializePackage
      { mimeType := file.type, fileName := file.name, options := options,
        data := arrayBufferToBase64 file.buffer }))

/-- The body of the `try` block of `decryptFile`: split the buffer at the
fixed 12-byte IV length, attempt authenticated decryption, decode the text,
parse the JSON package, and base64-decode the payload.  Any failure anywhere
in this chain is a `none`, which the enclosing catch turns into the single
generic error. -/
def decryptFileTryBody (encryptedBlob : List Nat) (code : String) :
    Option DecryptResult := do
  let decryptedContent ←
    aesGcmDecrypt (getKeyFromCode code) (encryptedBlob.take 12) (encryptedBlob.drop 12)
  let jsonString ← bytesToString decryptedContent
  let packageData ← parsePackage jsonString
  let fileBuffer ← base64ToArrayBuffer packageData.data
  pure { blob := fileBuffer, options := packageData.options,
         mimeType := packageData.mimeType }

/-- The `decryptFile` function of the crypto utility: the try body above with
the single catch-all error of the source (`throw new Error("No se pudo
desencriptar...")`). -/
def decryptFile (encryptedBlob : List Nat) (code : String) :
    Except String DecryptResult :=
  match decryptFileTryBody encryptedBlob code with
  | some r => Except.ok r
  | none => Except.error decryptErrorMsg

/-- Modelled from the spec: `hashString`, the CodeFingerprint function of the
crypto utility (its `utils/crypto` source file is not present under `src/`;
only its import and call sites are).  Per spec section 4.6 it is a
deterministic one-way digest of the code string in the SHA-256 class,
rendered as a hex string; it is idealized here as the concatenation of
fixed-width hex renderings of the code points.  The development uses only
that it is a deterministic string-valued digest. -/
def hexFixed : Nat → Nat → List Char
  | 0, _ => []
  | k + 1, n => hexFixed k (n / 16) ++ [hexDigitChar (n % 16)]

/-- Modelled from the spec: see `hexFixed` above; `hashString` maps each code
point to six hex digits and concatenates. -/
def hashString (s : String) : String :=
  String.mk (s.data.foldr (fun c acc => hexFixed 6 c.toNat ++ acc) [])

theorem decryptFileTryBody_encryptFile (file : FileData) (code : String)
    (options : FileOptions) (iv : List Nat) (hiv : iv.length = 12)
    (hb : ∀ b ∈ file.buffer, b < 256) :
    decryptFileTryBody (encryptFile file code options iv) code =
      some { blob := file.buffer, options := options, mimeType := file.type } := by
  rw [encryptFile, decryptFileTryBody]
  have htake : (iv ++ aesGcmEncrypt (getKeyFromCode code) iv
      (stringToBytes (serializePackage
        { mimeType := file.type, fileName := file.name, options := options,
          data := arrayBufferToBase64 file.buffer }))).take 12 = iv := by
    rw [← hiv]
    exact List.take_left _ _
  have hdrop : (iv ++ aesGcmEncrypt (getKeyFromCode code) iv
      (stringToBytes (serializePackage
        { mimeType := file.type, fileName := file.name, options := options,
          data := arrayBufferToBase64 file.buffer }))).drop 12 =
      aesGcmEncrypt (getKeyFromCode code) iv
        (stringToBytes (serializePackage
          { mimeType := file.type, fileName := file.name, options := options,
            data := arrayBufferToBase64 file.buffer })) := by
    rw [← hiv]
    exact List.drop_left _ _
  rw [htake, hdrop, aesGcm_roundtrip _ _ _ hiv]
  simp only [Option.bind_eq_bind, Option.some_bind]
  rw [bytesToString_stringToBytes]
  simp only [Option.bind_eq_bind, Option.some_bind]
  rw [parsePackage_serializePackage]
  simp only [Option.bind_eq_bind, Option.some_bind]
  rw [base64_helper_roundtrip file.buffer hb]
  simp only [Option.bind_eq_bind, Option.some_bind]
  rfl

theorem decryptFile_encryptFile (file : FileData) (code : String)
    (options : FileOptions) (iv : List Nat) (hiv : iv.length = 12)
    (hb : ∀ b ∈ file.buffer, b < 256) :
    decryptFile (encryptFile file code options iv) code =
      Except.ok { blob := file.buffer, options := options, mimeType := file.type } := by
  rw [decryptFile, decryptFileTryBody_encryptFile file code options iv hiv hb]

theorem decryptFile_wrong_key (file : FileData) (code code' : String)
    (options : FileOptions) (iv : List Nat) (hiv : iv.length = 12)
    (hne : code' ≠ code) :
    decryptFile (encryptFile file code options iv) code' =
      Except.error decryptErrorMsg := by
  have hkey : getKeyFromCode code' ≠ getKeyFromCode code := by
    intro h
    exact hne (getKeyFromCode_injective h)
  rw [decryptFile, encryptFile, decryptFileTryBody]
  have htake : (iv ++ aesGcmEncrypt (getKeyFromCode code) iv
      (stringToBytes (serializePackage
        { mimeType := file.type, fileName := file.name, options := options,
          data := arrayBufferToBase64 file.buffer }))).take 12 = iv := by
    rw [← hiv]
    exact List.take_left _ _
  have hdrop : (iv ++ aesGcmEncrypt (getKeyFromCode code) iv
      (stringToBytes (serializePackage
        { mimeType := file.type, fileName := file.name, options := options,
          data := arrayBufferToBase64 file.buffer }))).drop 12 =
      aesGcmEncrypt (getKeyFromCode code) iv
        (stringToBytes (serializePackage
          { mimeType := file.type, fileName := file.name, options := options,
            data := arrayBufferToBase64 file.buffer })) := by
    rw [← hiv]
    exact List.drop_left _ _
  rw [htake, hdrop, aesGcm_wrong_key _ _ _ _ _ hkey]
  rfl

theorem decryptFile_error_unique (encryptedBlob : List Nat) (code : String) :
    (∃ r, decryptFile encryptedBlob code = Except.ok r) ∨
      decryptFile encryptedBlob code = Except.error decryptErrorMsg := by
  rw [decryptFile]
  cases h : decryptFileTryBody encryptedBlob code with
  | some r => exact Or.inl ⟨r, rfl⟩
  | none => exact Or.inr rfl

/-- TempFile from types.ts as used by the retrieval view: record id, the raw
code kept client-side for decryption, the signed url, the declared type
string, timestamps, mime type and (after decryption) the options. -/
structure TempFileInfo where
  id : String
  code : String
  fileUrl : String
  type : String
  createdAt : Nat
  expiresAt : Nat
  mimeType : String
  options : Option FileOptions
deriving DecidableEq

/-- The `burnStatus` state of RetrieveView. -/
inductive BurnStatus
  | pending
  | burning
  | burnt
deriving DecidableEq

/-- The component state of RetrieveView that the retrieval flow reads and
writes: one field per `useState` hook involved in the claims. -/
structure RetrieveState where
  error : Option String
  isSearching : Bool
  isDecrypting : Bool
  isRevealed : Bool
  burnStatus : BurnStatus
  burnCountdown : Option Nat
  isPasswordLocked : Bool
  passwordInput : String
  cachedBlob : Option (List Nat)
  cachedFileInfo : Option TempFileInfo
  foundFile : Option TempFileInfo
  decryptedText : Option String
  decryptedUrl : Option (List Nat)
  isLightboxOpen : Bool
deriving DecidableEq

/-- The initial hook values of RetrieveView. -/
def initialRetrieveState : RetrieveState :=
  { error := none, isSearching := false, isDecrypting := false, isRevealed := false,
    burnStatus := BurnStatus.pending, burnCountdown := none, isPasswordLocked := false,
    passwordInput := "", cachedBlob := none, cachedFileInfo := none, foundFile := none,
    decryptedText := none, decryptedUrl := none, isLightboxOpen := false }

/-- Substring test, modelling `String.prototype.includes`. -/
def strIncludes (s pat : String) : Bool :=
  (List.range (s.data.length + 1)).any (fun i => pat.data.isPrefixOf (s.data.drop i))

/-- The mime-type to file-type classification inside `attemptDecryption`
(lines 200 to 209 of RetrieveView). -/
def determineFileType (mimeType : String) : String :=
  if mimeType = "text/plain" then "text"
  else if mimeType.startsWith "video/" then "video"
  else if mimeType.startsWith "audio/" then "audio"
  else if mimeType = "application/pdf" || strIncludes mimeType "document" ||
      strIncludes mimeType "msword" || strIncludes mimeType "sheet" ||
      strIncludes mimeType "presentation" then "document"
  else if mimeType = "application/zip" then "archive"
  else "image"

/-- The input sanitization of `performSearch`: trim, upper-case, and strip
every character outside `A-Z`, `0-9` and the hyphen (the regex replace).
Case mapping is modelled with the ASCII upper-casing of the library. -/
def sanitizeCode (searchCode : String) : String :=
  String.mk (searchCode.trim.toUpper.data.filter
    (fun c => ('A' ≤ c && c ≤ 'Z') || ('0' ≤ c && c ≤ '9') || c = '-'))

/-- Error message of the not-found / query-error branch of `performSearch`. -/
def notFoundMsg : String := "404: Archivo no encontrado o eliminado."

/-- Error message of the expiry branch of `performSearch`. -/
def expiredMsg : String := "TTL Expired: Archivo autodestruido."

/-- Error message when the signed-url request names a missing bucket. -/
def bucketInaccessibleMsg : String := "Error: Storage bucket inaccesible."

/-- Error message of the other signed-url failures. -/
def accessDeniedMsg : String := "Error: Acceso denegado al objeto."

/-- Error message when the ciphertext fetch fails. -/
def fetchFailedMsg : String := "Error de red al descargar paquete cifrado."

/-- Error message shown after a failed decrypt attempt with a password. -/
def wrongKeyMsg : String := "Clave de desencriptación incorrecta."

/-- The `attemptDecryption` handler of RetrieveView: try `decryptFile` with
the given key string; on success classify and unlock; on failure either
silently enter the password-locked state (first attempt, no password typed)
or surface the incorrect-key error. -/
def attemptDecryption (s : RetrieveState) (blob : List Nat) (fileInfo : TempFileInfo)
    (keyString : String) : RetrieveState :=
  let s0 := { s with isDecrypting := true, error := none }
  match decryptFile blob keyString with
  | Except.ok r =>
    let s1 :=
      if r.mimeType = "text/plain" then { s0 with decryptedText := some (blobText r.blob) }
      else { s0 with decryptedUrl := some r.blob }
    { s1 with
      foundFile := some
        { fileInfo with
          type := determineFileType r.mimeType,
          mimeType := r.mimeType, options := some r.options },
      isPasswordLocked := false, isSearching := false, isDecrypting := false }
  | Except.error _ =>
    if !s0.isPasswordLocked && s0.passwordInput == "" then
      { s0 with isPasswordLocked := true, isSearching := false, isDecrypting := false }
    else
      { s0 with error := some wrongKeyMsg, isDecrypting := false }

/-- The block of state resets at the top of `performSearch`. -/
def resetForSearch (s : RetrieveState) : RetrieveState :=
  { s with
    error := none, foundFile := none, decryptedUrl := none, decryptedText := none,
    isPasswordLocked := false, passwordInput := "", cachedBlob := none,
    cachedFileInfo := none, isSearching := true, burnStatus := BurnStatus.pending,
    burnCountdown := none, isRevealed := false, isLightboxOpen := false }

/-- The database row of the `temp_files` table as read back by the retrieval
query (the `code` column itself is the lookup key and is not part of the
selected fields the flow uses). -/
structure DbRecord where
  id : String
  filePath : String
  rowType : String
  createdAt : Nat
  expiresAt : Nat
deriving DecidableEq

/-- Outcome of `supabase.storage.createSignedUrl`: a url, or an error whose
message mentions the bucket, or any other error. -/
inductive SignedUrlResult
  | ok (url : String)
  | errBucket
  | errOther
deriving DecidableEq

/-- The external stores as the retrieval flow sees them: the record query by
fingerprint, the signed-url request by path, and the ciphertext fetch by url.
A `none`/error models both a transport failure and an empty result, which the
source treats identically. -/
structure SearchEnv where
  db : String → Option DbRecord
  signedUrl : String → SignedUrlResult
  fetchBlob : String → Option (List Nat)

/-- The `performSearch` handler of RetrieveView.  `now` is `Date.now()` at
the expiry check.  The second component lists the key strings with which a
decryption was attempted during the search (empty on every early exit). -/
def performSearch (s : RetrieveState) (env : SearchEnv) (searchCode : String)
    (now : Nat) : RetrieveState × List String :=
  let s0 := resetForSearch s
  let targetCode := sanitizeCode searchCode
  let targetHash := hashString targetCode
  match env.db targetHash with
  | none => ({ s0 with error := some notFoundMsg, isSearching := false }, [])
  | some data =>
    if now > data.expiresAt then
      ({ s0 with error := some expiredMsg, isSearching := false }, [])
    else
      match env.signedUrl data.filePath with
      | SignedUrlResult.errBucket =>
        ({ s0 with error := some bucketInaccessibleMsg, isSearching := false }, [])
      | SignedUrlResult.errOther =>
        ({ s0 with error := some accessDeniedMsg, isSearching := false }, [])
      | SignedUrlResult.ok url =>
        let fileInfo : TempFileInfo :=
          { id := data.id, code := targetCode, fileUrl := url, type := data.rowType,
            createdAt := data.createdAt, expiresAt := data.expiresAt,
            mimeType := "application/encrypted", options := none }
        match env.fetchBlob url with
        | none => ({ s0 with error := some fetchFailedMsg, isSearching := false }, [])
        | some encryptedBlob =>
          let s1 :=
            { s0 with
              cachedBlob := some encryptedBlob,
              cachedFileInfo := some fileInfo, foundFile := some fileInfo }
          (attemptDecryption s1 encryptedBlob fileInfo targetCode, [targetCode])

/-- The `handlePasswordSubmit` handler of RetrieveView: retry decryption on
the cached ciphertext with the code concatenated with the typed password. -/
def handlePasswordSubmit (s : RetrieveState) : RetrieveState :=
  match s.cachedBlob, s.cachedFileInfo with
  | some blob, some fi => attemptDecryption s blob fi (fi.code ++ s.passwordInput)
  | _, _ => s

/-- The burn sequence scheduled by `handleReveal`: the grace period in
seconds and the record id captured by the timer closure. -/
structure BurnSchedule where
  delaySeconds : Nat
  recordId : String
deriving DecidableEq

/-- Timing of the scheduled burn: the burning transition fires after the
grace period; the delete request goes out after the additional fixed 2000 ms
animation delay. -/
def burnScheduleTimesMs (sch : BurnSchedule) : Nat × Nat :=
  (sch.delaySeconds * 1000, sch.delaySeconds * 1000 + 2000)

/-- The `handleReveal` handler of RetrieveView: reveal the content; when the
decrypted options request burn-on-read and no burn is underway, start the
countdown with `burnDelaySeconds || 60` (the JS or-default applies when the
member is absent or zero) and schedule the burn sequence. -/
def handleReveal (s : RetrieveState) : RetrieveState × Option BurnSchedule :=
  let s1 := { s with isRevealed := true }
  match s.foundFile with
  | none => (s1, none)
  | some f =>
    match f.options with
    | none => (s1, none)
    | some o =>
      if o.burnOnRead = true ∧ s.burnStatus = BurnStatus.pending then
        let delaySeconds :=
          match o.burnDelaySeconds with
          | some d => if d = 0 then 60 else d
          | none => 60
        ({ s1 with burnCountdown := some delaySeconds },
          some { delaySeconds := delaySeconds, recordId := f.id })
      else (s1, none)

/-- The timer body scheduled by `handleReveal`, run when the burn delay
elapses: enter `burning`, then (after the animation delay) issue the delete
request for the captured record id; on success mark `burnt` and close the
lightbox, on failure only log (the state keeps `burning` and nothing is
rolled back).  The second component lists the delete requests issued. -/
def burnFire (s : RetrieveState) (sch : BurnSchedule) (deleteOk : Bool) :
    RetrieveState × List String :=
  let s1 := { s with burnStatus := BurnStatus.burning }
  if sch.recordId = "" then
    ({ s1 with burnStatus := BurnStatus.burnt, isLightboxOpen := false }, [])
  else if deleteOk then
    ({ s1 with burnStatus := BurnStatus.burnt, isLightboxOpen := false }, [sch.recordId])
  else
    (s1, [sch.recordId])

/-- Alert shown when ten uniqueness attempts all collided. -/
def uniqueCodeAlertMsg : String :=
  "Error generando un código único. Por favor, inténtalo de nuevo."

/-- Outcome of `handleInitialSubmit` on the UploadView state: the generated
code, whether the confirmation modal opened, and any alert surfaced. -/
structure SubmitResult where
  generatedCode : Option String
  showConfirmModal : Bool
  alertMsg : Option String
deriving DecidableEq

/-- The uniqueness loop of `handleInitialSubmit`: up to `remaining` attempts,
generate the next candidate code, fingerprint it and ask the store whether
the fingerprint exists.  `check` returning `none` models the existence query
throwing (a transport failure); the exception escapes the loop. -/
def ensureUniqueGo (check : String → Option Bool) (codes : Nat → String) :
    Nat → Nat → Except Unit (Option String)
  | _, 0 => Except.ok none
  | attempt, r + 1 =>
    match check (hashString (codes attempt)) with
    | none => Except.error ()
    | some true => ensureUniqueGo check codes (attempt + 1) r
    | some false => Except.ok (some (codes attempt))

/-- The `handleInitialSubmit` handler of UploadView (code-generation part):
run the ten-attempt uniqueness loop; on success show the confirmation modal
with the unique code; after ten collisions alert and stop; when the
existence check throws, the catch logs, falls back to a fresh unchecked code
(`fallbackCode`) and still opens the confirmation modal. -/
def handleInitialSubmit (check : String → Option Bool) (codes : Nat → String)
    (fallbackCode : String) : SubmitResult :=
  match ensureUniqueGo check codes 0 10 with
  | Except.error _ =>
    { generatedCode := some fallbackCode, showConfirmModal := true, alertMsg := none }
  | Except.ok none =>
    { generatedCode := none, showConfirmModal := false,
      alertMsg := some uniqueCodeAlertMsg }
  | Except.ok (some code) =>
    { generatedCode := some code, showConfirmModal := true, alertMsg := none }

/-- The row handed to the `temp_files` insert by `executeUpload`. -/
structure InsertRow where
  code : String
  filePath : String
  rowType : String
  mimeType : String
  expiresAt : Nat
deriving DecidableEq

/-- Alerts `executeUpload` can surface, abstracted from their message text. -/
inductive UploadAlert
  | bucketMissing
  | uploadFailed
  | dbFailed
deriving DecidableEq

/-- Outcomes of the two backend calls of `executeUpload`. -/
structure UploadEnv where
  storageOk : Bool
  dbOk : Bool
deriving DecidableEq

/-- What `executeUpload` handed to the backends: the object-storage path and
blob of the `upload` call, the row of the `insert` call (present only when
the storage upload succeeded, since an upload error throws first), any alert,
and whether the flow completed. -/
structure UploadResult where
  storagePath : Option String
  storedBlob : Option (List Nat)
  insertRow : Option InsertRow
  alert : Option UploadAlert
  success : Bool
deriving DecidableEq

/-- The type classification of `executeUpload` (lines 326 to 330). -/
def determineUploadType (mode : String) (fileMime : String) : String :=
  if mode = "text" then "text"
  else if mode = "audio" || fileMime.startsWith "audio/" then "audio"
  else if fileMime.startsWith "video/" then "video"
  else if mode = "document" then "document"
  else "image"

/-- The `executeUpload` handler of UploadView.  `fileToEncrypt` is the file
built from the mode (the text mode wraps the note into a `secret_note.txt`
file before this point); `freshCode` is the `generateRandomCode()` fallback
of `generatedCode || generateRandomCode()`; `iv` is the random nonce drawn
inside `encryptFile`; `now` is `Date.now()` for the path suffix and expiry. -/
def executeUpload (mode : String) (fileToEncrypt : FileData)
    (generatedCode : Option String) (freshCode : String) (password : String)
    (burnOnRead : Bool) (duration : Nat) (burnDelay : Nat) (iv : List Nat)
    (now : Nat) (env : UploadEnv) : UploadResult :=
  let code := generatedCode.getD freshCode
  let encryptionKey := if password ≠ "" then code ++ password else code
  let encryptedBlob := encryptFile fileToEncrypt encryptionKey
    { burnOnRead := burnOnRead, durationMinutes := duration,
      burnDelaySeconds := if burnOnRead then some burnDelay else none } iv
  let codeHash := hashString code
  let filePath := codeHash ++ "-" ++ natToString now ++ ".enc"
  if env.storageOk then
    let row : InsertRow :=
      { code := codeHash, filePath := filePath,
        rowType := determineUploadType mode fileToEncrypt.type,
        mimeType := "application/encrypted",
        expiresAt := now + duration * 60 * 1000 }
    if env.dbOk then
      { storagePath := some filePath, storedBlob := some encryptedBlob,
        insertRow := some row, alert := none, success := true }
    else
      { storagePath := some filePath, storedBlob := some encryptedBlob,
        insertRow := some row, alert := some UploadAlert.dbFailed, success := false }
  else
    { storagePath := some filePath, storedBlob := some encryptedBlob,
      insertRow := none, alert := some UploadAlert.bucketMissing, success := false }

/-- C1: for every Package (payload bytes, mime type, file name, option set)
and every secret string S, decrypting with the key derived from S the
envelope produced by encrypting that Package with the key derived from S
succeeds and returns the original Package content (payload bytes, mime type,
and options) unchanged. -/
theorem c1_encryption_roundtrip (name mimeType : String) (payload : List Nat)
    (options : FileOptions) (code : String) (iv : List Nat)
    (hiv : iv.length = 12) (hb : ∀ b ∈ payload, b < 256) :
    decryptFile
        (encryptFile { name := name, type := mimeType, buffer := payload } code options iv)
        code =
      Except.ok { blob := payload, options := options, mimeType := mimeType } :=
  decryptFile_encryptFile { name := name, type := mimeType, buffer := payload }
    code options iv hiv hb

/-- Witness for C1 at a concrete package, code and nonce. -/
theorem c1_encryption_roundtrip_witness :
    decryptFile
        (encryptFile { name := "a.txt", type := "text/plain", buffer := [104, 105] }
          "ABC-123" { burnOnRead := true, durationMinutes := 5, burnDelaySeconds := some 10 }
          (List.replicate 12 0))
        "ABC-123" =
      Except.ok
        { blob := [104, 105],
          options := { burnOnRead := true, durationMinutes := 5, burnDelaySeconds := some 10 },
          mimeType := "text/plain" } :=
  c1_encryption_roundtrip "a.txt" "text/plain" [104, 105]
    { burnOnRead := true, durationMinutes := 5, burnDelaySeconds := some 10 }
    "ABC-123" (List.replicate 12 0) (by decide) (by decide)

/-- C2: for all payload byte sequences P, mime types M, filenames F and
option sets O, deserializing the serialized package yields exactly the
original tuple (P, M, F, O), including the original file name F. -/
theorem c2_codec_roundtrip (payload : List Nat) (mimeType fileName : String)
    (options : FileOptions) (hb : ∀ b ∈ payload, b < 256) :
    deserializeTuple (serializeTuple payload mimeType fileName options) =
      some (payload, mimeType, fileName, options) :=
  deserializeTuple_serializeTuple payload mimeType fileName options hb

/-- Witness for C2 at a concrete tuple. -/
theorem c2_codec_roundtrip_witness :
    deserializeTuple (serializeTuple [0, 255] "image/png" "photo \"1\".png"
        { burnOnRead := false, durationMinutes := 60, burnDelaySeconds := none }) =
      some ([0, 255], "image/png", "photo \"1\".png",
        { burnOnRead := false, durationMinutes := 60, burnDelaySeconds := none }) :=
  c2_codec_roundtrip [0, 255] "image/png" "photo \"1\".png"
    { burnOnRead := false, durationMinutes := 60, burnDelaySeconds := none } (by decide)

/-- C3: for every Package and every pair of distinct secret strings S and
S-prime, decrypting the envelope encrypted under the key of S with the key of
S-prime raises the decryption error and never returns plaintext. -/
theorem c3_wrong_key_rejected (name mimeType : String) (payload : List Nat)
    (options : FileOptions) (code code' : String) (iv : List Nat)
    (hiv : iv.length = 12) (hne : code ≠ code') :
    decryptFile
        (encryptFile { name := name, type := mimeType, buffer := payload } code options iv)
        code' =
      Except.error decryptErrorMsg :=
  decryptFile_wrong_key { name := name, type := mimeType, buffer := payload }
    code code' options iv hiv (Ne.symm hne)

/-- Witness for C3 at two concrete distinct codes. -/
theorem c3_wrong_key_rejected_witness :
    decryptFile
        (encryptFile { name := "a", type := "text/plain", buffer := [] }
          "AAA-AAA" { burnOnRead := false, durationMinutes := 5, burnDelaySeconds := none }
          (List.replicate 12 0))
        "BBB-BBB" =
      Except.error decryptErrorMsg :=
  c3_wrong_key_rejected "a" "text/plain" []
    { burnOnRead := false, durationMinutes := 5, burnDelaySeconds := none }
    "AAA-AAA" "BBB-BBB" (List.replicate 12 0) (by decide) (by decide)

/-- C6 counterexample: a structurally invalid input (three bytes, too short
to contain the 12-byte nonce) and an authentication failure (wrong key on a
well-formed envelope) are reported with the one identical error message, so
the two failure modes are not reported distinguishably. -/
theorem c6_counterexample :
    decryptFile [0, 1, 2] "AAA-AAA" = Except.error decryptErrorMsg ∧
    decryptFile
        (encryptFile { name := "a", type := "text/plain", buffer := [] }
          "AAA-AAA" { burnOnRead := false, durationMinutes := 5, burnDelaySeconds := none }
          (List.replicate 12 0))
        "BBB-BBB" = Except.error decryptErrorMsg := by
  constructor
  · rfl
  · exact decryptFile_wrong_key { name := "a", type := "text/plain", buffer := [] }
      "AAA-AAA" "BBB-BBB"
      { burnOnRead := false, durationMinutes := 5, burnDelaySeconds := none }
      (List.replicate 12 0) (by decide) (by decide)

/-- C6 as amended: `decryptFile` reports every failure, whether the input is
structurally too short, fails authentication, or fails to decode, with the
same single error message; the failure modes are not distinguished. -/
theorem c6_single_error_message (encryptedBlob : List Nat) (code : String) :
    (∃ r, decryptFile encryptedBlob code = Except.ok r) ∨
      decryptFile encryptedBlob code = Except.error decryptErrorMsg :=
  decryptFile_error_unique encryptedBlob code

/-- C4: when the first decryption attempt of a fetched envelope (bare code,
no password attempted) fails, the retrieval flow shows no error and enters
the password-required state; when a subsequent attempt with the code
concatenated with a supplied password fails, the incorrect-key error is
shown. -/
theorem c4_password_fallback_flow :
    (∀ (s : RetrieveState) (env : SearchEnv) (input : String) (now : Nat)
        (rec : DbRecord) (url : String) (blob : List Nat) (e : String),
      env.db (hashString (sanitizeCode input)) = some rec →
      ¬ now > rec.expiresAt →
      env.signedUrl rec.filePath = SignedUrlResult.ok url →
      env.fetchBlob url = some blob →
      decryptFile blob (sanitizeCode input) = Except.error e →
      (performSearch s env input now).1.error = none ∧
        (performSearch s env input now).1.isPasswordLocked = true ∧
        (performSearch s env input now).1.isSearching = false) ∧
    (∀ (s : RetrieveState) (blob : List Nat) (fi : TempFileInfo) (e : String),
      s.cachedBlob = some blob → s.cachedFileInfo = some fi →
      s.isPasswordLocked = true →
      decryptFile blob (fi.code ++ s.passwordInput) = Except.error e →
      (handlePasswordSubmit s).error = some wrongKeyMsg) := by
  constructor
  · intro s env input now rec url blob e hdb hexp hurl hfetch hdec
    simp only [performSearch, hdb, hurl, hfetch]
    rw [if_neg hexp]
    simp only [attemptDecryption, hdec]
    simp [resetForSearch]
  · intro s blob fi e hcb hcf hlock hdec
    simp only [handlePasswordSubmit, hcb, hcf]
    simp only [attemptDecryption, hdec]
    simp [hlock]

/-- Record used by the C4 witness environment. -/
def c4Rec : DbRecord :=
  { id := "r1", filePath := "p", rowType := "image", createdAt := 0, expiresAt := 100 }

/-- Environment used by the C4 witness: the record exists, the url resolves,
and the fetched blob is empty, so the bare-code decrypt fails. -/
def c4Env : SearchEnv :=
  { db := fun _ => some c4Rec, signedUrl := fun _ => SignedUrlResult.ok "u",
    fetchBlob := fun _ => some [] }

/-- State used by the C4 witness password retry: locked, a password typed,
and a cached undecryptable blob. -/
def c4State : RetrieveState :=
  { initialRetrieveState with
    cachedBlob := some [],
    cachedFileInfo := some
      { id := "r1", code := "AAA-AAA", fileUrl := "u", type := "image", createdAt := 0,
        expiresAt := 100, mimeType := "application/encrypted", options := none },
    isPasswordLocked := true, passwordInput := "x" }

/-- Witness for C4 at the concrete environment and state above. -/
theorem c4_password_fallback_flow_witness :
    ((performSearch initialRetrieveState c4Env "AAA-AAA" 0).1.error = none ∧
      (performSearch initialRetrieveState c4Env "AAA-AAA" 0).1.isPasswordLocked = true ∧
      (performSearch initialRetrieveState c4Env "AAA-AAA" 0).1.isSearching = false) ∧
    (handlePasswordSubmit c4State).error = some wrongKeyMsg := by
  constructor
  · exact c4_password_fallback_flow.1 initialRetrieveState c4Env "AAA-AAA" 0 c4Rec "u" []
      decryptErrorMsg rfl (by decide) rfl rfl rfl
  · exact c4_password_fallback_flow.2 c4State []
      { id := "r1", code := "AAA-AAA", fileUrl := "u", type := "image", createdAt := 0,
        expiresAt := 100, mimeType := "application/encrypted", options := none }
      decryptErrorMsg rfl rfl rfl rfl

/-- C5: for every upload, the identifiers handed to the backend never carry
the raw share code: the record row's code column stores the code's
fingerprint, and the object-storage path is the fingerprint plus a timestamp
(and the fixed extension), not the raw code. -/
theorem c5_zero_knowledge_identifiers (mode : String) (fileToEncrypt : FileData)
    (generatedCode : Option String) (freshCode password : String) (burnOnRead : Bool)
    (duration burnDelay : Nat) (iv : List Nat) (now : Nat) (env : UploadEnv) :
    (executeUpload mode fileToEncrypt generatedCode freshCode password burnOnRead
        duration burnDelay iv now env).storagePath =
      some (hashString (generatedCode.getD freshCode) ++ "-" ++ natToString now ++ ".enc") ∧
    ∀ row,
      (executeUpload mode fileToEncrypt generatedCode freshCode password burnOnRead
          duration burnDelay iv now env).insertRow = some row →
      row.code = hashString (generatedCode.getD freshCode) ∧
      row.filePath =
        hashString (generatedCode.getD freshCode) ++ "-" ++ natToString now ++ ".enc" := by
  rcases env with ⟨so, dbo⟩
  constructor
  · cases so <;> cases dbo <;> simp [executeUpload]
  · intro row h
    cases so <;> cases dbo <;> simp [executeUpload] at h <;>
      simp [← h]

/-- The row inserted by the C5 witness upload. -/
def c5Row : InsertRow :=
  { code := hashString "ABC-234",
    filePath := hashString "ABC-234" ++ "-" ++ natToString 1000 ++ ".enc",
    rowType := "text", mimeType := "application/encrypted",
    expiresAt := 1000 + 5 * 60 * 1000 }

/-- Witness for C5 at a concrete upload. -/
theorem c5_zero_knowledge_identifiers_witness :
    (executeUpload "text" { name := "secret_note.txt", type := "text/plain", buffer := [104] }
        (some "ABC-234") "XYZ-999" "" false 5 10 (List.replicate 12 0) 1000
        { storageOk := true, dbOk := true }).storagePath =
      some (hashString "ABC-234" ++ "-" ++ natToString 1000 ++ ".enc") ∧
    c5Row.code = hashString "ABC-234" := by
  have h := c5_zero_knowledge_identifiers "text"
    { name := "secret_note.txt", type := "text/plain", buffer := [104] }
    (some "ABC-234") "XYZ-999" "" false 5 10 (List.replicate 12 0) 1000
    { storageOk := true, dbOk := true }
  exact ⟨h.1, (h.2 c5Row rfl).1⟩

/-- State used by the C7 counterexample: a revealed record whose options set
burnOnRead with burnDelaySeconds zero. -/
def c7State : RetrieveState :=
  { initialRetrieveState with
    foundFile := some
      { id := "r1", code := "AAA-AAA", fileUrl := "u", type := "image", createdAt := 0,
        expiresAt := 100, mimeType := "image/png",
        options := some
          { burnOnRead := true, durationMinutes := 5, burnDelaySeconds := some 0 } } }

/-- C7 counterexample: with burnDelaySeconds = 0 the reveal schedules a
60-second grace period, not the zero seconds the claim, read at d = 0,
requires, so the claim as universally stated fails. -/
theorem c7_counterexample :
    (handleReveal c7State).2 = some { delaySeconds := 60, recordId := "r1" } ∧
      (60 : Nat) ≠ 0 :=
  ⟨rfl, by decide⟩

/-- C7 as amended: for a revealed record whose decrypted options specify
burnOnRead with a positive burnDelaySeconds d, the reveal keeps the content
visible, schedules the burn with exactly that d-second grace period on the
record's id, the fired sequence issues exactly one delete request, for that
id, and a failing delete is only logged: the revealed state, the shown
content and the error field are untouched. -/
theorem c7_burn_schedule (s : RetrieveState) (f : TempFileInfo) (o : FileOptions) (d : Nat)
    (hf : s.foundFile = some f) (ho : f.options = some o) (hb : o.burnOnRead = true)
    (hd : o.burnDelaySeconds = some d) (hdpos : 0 < d)
    (hs : s.burnStatus = BurnStatus.pending) (hid : f.id ≠ "") :
    (handleReveal s).1.isRevealed = true ∧
    (handleReveal s).2 = some { delaySeconds := d, recordId := f.id } ∧
    (∀ deleteOk : Bool,
      (burnFire (handleReveal s).1 { delaySeconds := d, recordId := f.id } deleteOk).2 =
        [f.id]) ∧
    (burnFire (handleReveal s).1 { delaySeconds := d, recordId := f.id } false).1.isRevealed =
      true ∧
    (burnFire (handleReveal s).1 { delaySeconds := d, recordId := f.id } false).1.error =
      (handleReveal s).1.error ∧
    (burnFire (handleReveal s).1 { delaySeconds := d, recordId := f.id } false).1.decryptedUrl =
      (handleReveal s).1.decryptedUrl := by
  have hcond : o.burnOnRead = true ∧ s.burnStatus = BurnStatus.pending := ⟨hb, hs⟩
  simp only [handleReveal, hf, ho, if_pos hcond, hd]
  rw [if_neg (by omega : ¬ d = 0)]
  simp only [burnFire, if_neg hid]
  simp

/-- State used by the C7 and C10 witnesses: burn-on-read with a five second
delay (C7) and with no delay member (C10). -/
def c7WitnessState : RetrieveState :=
  { initialRetrieveState with
    foundFile := some
      { id := "r1", code := "AAA-AAA", fileUrl := "u", type := "image", createdAt := 0,
        expiresAt := 100, mimeType := "image/png",
        options := some
          { burnOnRead := true, durationMinutes := 5, burnDelaySeconds := some 5 } } }

/-- Witness for the amended C7 at the concrete five second state. -/
theorem c7_burn_schedule_witness :
    (handleReveal c7WitnessState).1.isRevealed = true ∧
    (handleReveal c7WitnessState).2 = some { delaySeconds := 5, recordId := "r1" } ∧
    (∀ deleteOk : Bool,
      (burnFire (handleReveal c7WitnessState).1 { delaySeconds := 5, recordId := "r1" }
        deleteOk).2 = ["r1"]) ∧
    (burnFire (handleReveal c7WitnessState).1 { delaySeconds := 5, recordId := "r1" }
      false).1.isRevealed = true ∧
    (burnFire (handleReveal c7WitnessState).1 { delaySeconds := 5, recordId := "r1" }
      false).1.error = (handleReveal c7WitnessState).1.error ∧
    (burnFire (handleReveal c7WitnessState).1 { delaySeconds := 5, recordId := "r1" }
      false).1.decryptedUrl = (handleReveal c7WitnessState).1.decryptedUrl :=
  c7_burn_schedule c7WitnessState
    { id := "r1", code := "AAA-AAA", fileUrl := "u", type := "image", createdAt := 0,
      expiresAt := 100, mimeType := "image/png",
      options := some
        { burnOnRead := true, durationMinutes := 5, burnDelaySeconds := some 5 } }
    { burnOnRead := true, durationMinutes := 5, burnDelaySeconds := some 5 } 5
    rfl rfl rfl rfl (by decide) rfl (by decide)

/-- C8: looking up a code whose record exists but whose expiry timestamp has
passed yields the Expired outcome, attempts no decryption, and the Expired
message differs from the NotFound message. -/
theorem c8_expired_lookup (s : RetrieveState) (env : SearchEnv) (input : String)
    (now : Nat) (rec : DbRecord)
    (hdb : env.db (hashString (sanitizeCode input)) = some rec)
    (hexp : now > rec.expiresAt) :
    (performSearch s env input now).1.error = some expiredMsg ∧
    (performSearch s env input now).2 = [] ∧
    expiredMsg ≠ notFoundMsg := by
  simp only [performSearch, hdb]
  rw [if_pos hexp]
  refine ⟨rfl, rfl, by decide⟩

/-- Record used by the C8 witness: already expired at lookup time. -/
def c8Rec : DbRecord :=
  { id := "r1", filePath := "p", rowType := "image", createdAt := 0, expiresAt := 100 }

/-- Environment used by the C8 witness. -/
def c8Env : SearchEnv :=
  { db := fun _ => some c8Rec, signedUrl := fun _ => SignedUrlResult.ok "u",
    fetchBlob := fun _ => some [] }

/-- Witness for C8 at the concrete expired record. -/
theorem c8_expired_lookup_witness :
    (performSearch initialRetrieveState c8Env "AAA-AAA" 200).1.error = some expiredMsg ∧
    (performSearch initialRetrieveState c8Env "AAA-AAA" 200).2 = [] ∧
    expiredMsg ≠ notFoundMsg :=
  c8_expired_lookup initialRetrieveState c8Env "AAA-AAA" 200 c8Rec rfl (by decide)

/-- C9 counterexample: when the code-uniqueness existence check fails
(throws) during upload, the flow is not aborted with an error: no alert is
surfaced and the confirmation modal still opens, with a fresh unchecked
code, so the claim that every fetch or query error aborts the operation with
no continuation fails at this input. -/
theorem c9_counterexample :
    (handleInitialSubmit (fun _ => none) (fun _ => "AAA-AAA") "BBB-BBB").showConfirmModal =
        true ∧
    (handleInitialSubmit (fun _ => none) (fun _ => "AAA-AAA") "BBB-BBB").alertMsg = none ∧
    (handleInitialSubmit (fun _ => none) (fun _ => "AAA-AAA") "BBB-BBB").generatedCode =
        some "BBB-BBB" :=
  ⟨rfl, rfl, rfl⟩

/-- C9 as amended: on the retrieval side a failed record query or a failed
ciphertext fetch surfaces an error immediately and aborts with no decryption
attempt and no retry; on the upload side, however, a failure of the
code-uniqueness existence check is only logged and the flow continues to the
confirmation step with an unchecked code. -/
theorem c9_transport_failures :
    (∀ (s : RetrieveState) (env : SearchEnv) (input : String) (now : Nat),
      env.db (hashString (sanitizeCode input)) = none →
      (performSearch s env input now).1.error = some notFoundMsg ∧
        (performSearch s env input now).2 = []) ∧
    (∀ (s : RetrieveState) (env : SearchEnv) (input : String) (now : Nat)
        (rec : DbRecord) (url : String),
      env.db (hashString (sanitizeCode input)) = some rec →
      ¬ now > rec.expiresAt →
      env.signedUrl rec.filePath = SignedUrlResult.ok url →
      env.fetchBlob url = none →
      (performSearch s env input now).1.error = some fetchFailedMsg ∧
        (performSearch s env input now).2 = []) ∧
    (∀ (check : String → Option Bool) (codes : Nat → String) (fallbackCode : String),
      check (hashString (codes 0)) = none →
      (handleInitialSubmit check codes fallbackCode).showConfirmModal = true ∧
        (handleInitialSubmit check codes fallbackCode).alertMsg = none) := by
  refine ⟨?_, ?_, ?_⟩
  · intro s env input now hdb
    simp only [performSearch, hdb]
    constructor <;> simp
  · intro s env input now rec url hdb hexp hurl hfetch
    simp only [performSearch, hdb]
    rw [if_neg hexp]
    simp only [hurl, hfetch]
    constructor <;> simp
  · intro check codes fallbackCode hcheck
    have hloop : ensureUniqueGo check codes 0 10 = Except.error () := by
      show (match check (hashString (codes 0)) with
        | none => Except.error ()
        | some true => ensureUniqueGo check codes (0 + 1) 9
        | some false => Except.ok (some (codes 0))) = Except.error ()
      rw [hcheck]
    rw [handleInitialSubmit, hloop]
    exact ⟨rfl, rfl⟩

/-- Environment used by the C9 witness not-found branch. -/
def c9Env1 : SearchEnv :=
  { db := fun _ => none, signedUrl := fun _ => SignedUrlResult.ok "u",
    fetchBlob := fun _ => some [] }

/-- Record used by the C9 witness fetch-failure branch. -/
def c9Rec : DbRecord :=
  { id := "r1", filePath := "p", rowType := "image", createdAt := 0, expiresAt := 100 }

/-- Environment used by the C9 witness fetch-failure branch. -/
def c9Env2 : SearchEnv :=
  { db := fun _ => some c9Rec, signedUrl := fun _ => SignedUrlResult.ok "u",
    fetchBlob := fun _ => none }

/-- Witness for the amended C9 at concrete environments. -/
theorem c9_transport_failures_witness :
    ((performSearch initialRetrieveState c9Env1 "AAA-AAA" 0).1.error = some notFoundMsg ∧
      (performSearch initialRetrieveState c9Env1 "AAA-AAA" 0).2 = []) ∧
    ((performSearch initialRetrieveState c9Env2 "AAA-AAA" 0).1.error = some fetchFailedMsg ∧
      (performSearch initialRetrieveState c9Env2 "AAA-AAA" 0).2 = []) ∧
    ((handleInitialSubmit (fun _ => none) (fun _ => "AAA-AAA") "CCC-CCC").showConfirmModal =
        true ∧
      (handleInitialSubmit (fun _ => none) (fun _ => "AAA-AAA") "CCC-CCC").alertMsg = none) :=
  ⟨c9_transport_failures.1 initialRetrieveState c9Env1 "AAA-AAA" 0 rfl,
    c9_transport_failures.2.1 initialRetrieveState c9Env2 "AAA-AAA" 0 c9Rec "u" rfl
      (by decide) rfl rfl,
    c9_transport_failures.2.2 (fun _ => none) (fun _ => "AAA-AAA") "CCC-CCC" rfl⟩

/-- C10: if a decrypted package has burnOnRead enabled but its options carry
no burnDelaySeconds value, or the value is zero, the reveal flow substitutes
the default grace period of 60 seconds before starting the burn sequence. -/
theorem c10_burn_default (s : RetrieveState) (f : TempFileInfo) (o : FileOptions)
    (hf : s.foundFile = some f) (ho : f.options = some o) (hb : o.burnOnRead = true)
    (hs : s.burnStatus = BurnStatus.pending)
    (hd : o.burnDelaySeconds = none ∨ o.burnDelaySeconds = some 0) :
    (handleReveal s).2 = some { delaySeconds := 60, recordId := f.id } ∧
    (handleReveal s).1.burnCountdown = some 60 := by
  have hcond : o.burnOnRead = true ∧ s.burnStatus = BurnStatus.pending := ⟨hb, hs⟩
  rcases hd with hd | hd
  · simp only [handleReveal, hf, ho, if_pos hcond, hd]
    constructor <;> simp
  · simp only [handleReveal, hf, ho, if_pos hcond, hd]
    constructor <;> simp

/-- State used by the C10 witness: burn-on-read with no delay member. -/
def c10State : RetrieveState :=
  { initialRetrieveState with
    foundFile := some
      { id := "r1", code := "AAA-AAA", fileUrl := "u", type := "image", createdAt := 0,
        expiresAt := 100, mimeType := "image/png",
        options := some
          { burnOnRead := true, durationMinutes := 5, burnDelaySeconds := none } } }

/-- Witness for C10 at the concrete state above. -/
theorem c10_burn_default_witness :
    (handleReveal c10State).2 = some { delaySeconds := 60, recordId := "r1" } ∧
    (handleReveal c10State).1.burnCountdown = some 60 :=
  c10_burn_default c10State
    { id := "r1", code := "AAA-AAA", fileUrl := "u", type := "image", createdAt := 0,
      expiresAt := 100, mimeType := "image/png",
      options := some
        { burnOnRead := true, durationMinutes := 5, burnDelaySeconds := none } }
    { burnOnRead := true, durationMinutes := 5, burnDelaySeconds := none }
    rfl rfl rfl rfl (Or.inl rfl)
